import Mathlib

/-!
Shallow embedding of the input-event model of the `floem` repository
(`src/event.rs` and `src/dropped_file.rs`).

Machine floats (`f64`) are modelled by `ℚ`; `usize` by `Nat`; `PathBuf` by
`String`; `Vec` by `List`.  Payload types imported from the external
`ui_events`, `peniko::kurbo` and `winit` crates are modelled with exactly the
fields the code under verification reads or writes, with the remaining
(never-inspected) payload collapsed into an abstract `aux : Nat` field so that
theorems about untouched fields are meaningful.
-/

/-- Model of `kurbo::Point`: a 2D point with `f64` coordinates (here `ℚ`). -/
structure Point where
  x : ℚ
  y : ℚ
deriving DecidableEq, Repr

/-- Model of `kurbo::Size`: width and height. -/
structure Size where
  width : ℚ
  height : ℚ
deriving DecidableEq, Repr

/-- Model of `kurbo::Affine`: the six coefficients `[a0, a1, a2, a3, a4, a5]`
of an affine transform, in kurbo's column-major layout. -/
structure Affine where
  a0 : ℚ
  a1 : ℚ
  a2 : ℚ
  a3 : ℚ
  a4 : ℚ
  a5 : ℚ
deriving DecidableEq, Repr

/-- Model of kurbo's `Affine * Point` multiplication:
`(a0*x + a2*y + a4, a1*x + a3*y + a5)`. -/
def Affine.apply (t : Affine) (p : Point) : Point :=
  ⟨t.a0 * p.x + t.a2 * p.y + t.a4, t.a1 * p.x + t.a3 * p.y + t.a5⟩

/-- Model of `kurbo::Affine::determinant`. -/
def Affine.det (t : Affine) : ℚ :=
  t.a0 * t.a3 - t.a1 * t.a2

/-- Model of `kurbo::Affine::inverse`, coefficient by coefficient
(`recip` of the determinant times the adjugate). -/
def Affine.inverse (t : Affine) : Affine :=
  let inv_det := t.det⁻¹
  ⟨inv_det * t.a3, -(inv_det * t.a1), -(inv_det * t.a2), inv_det * t.a0,
    inv_det * (t.a2 * t.a5 - t.a3 * t.a4), inv_det * (t.a1 * t.a4 - t.a0 * t.a5)⟩

/-- Model of `kurbo::Affine::translate((dx, dy))`: `[1, 0, 0, 1, dx, dy]`. -/
def Affine.translate (v : ℚ × ℚ) : Affine :=
  ⟨1, 0, 0, 1, v.1, v.2⟩

/-- Model of `winit::window::Theme`. -/
inductive Theme where
  | Light
  | Dark
deriving DecidableEq, Repr

/-- Model of `ui_events::pointer::PointerInfo` (pointer id, device id,
pointer type -- none of which the event code inspects). -/
structure PointerInfo where
  aux : Nat
deriving DecidableEq, Repr

/-- Model of `ui_events::pointer::PointerState<Point>`: the `position` field is
the only one the event code reads or writes; the rest (buttons, modifiers,
pressure, ...) is abstracted into `aux`. -/
structure PointerState where
  position : Point
  aux : Nat
deriving DecidableEq, Repr

/-- Model of `ui_events::pointer::PointerUpdate<Point>`: the `current` state is
the only field the event code touches; `pointer`, `coalesced` and `predicted`
are abstracted. -/
structure PointerUpdate where
  pointer : PointerInfo
  current : PointerState
  aux : Nat
deriving DecidableEq, Repr

/-- Model of `ui_events::ScrollDelta` (line/pixel delta, never inspected by the
event code). -/
structure ScrollDelta where
  aux : Nat
deriving DecidableEq, Repr

/-- Model of `ui_events::pointer::PointerButton` as an abstract identifier. -/
structure PointerButton where
  aux : Nat
deriving DecidableEq, Repr

/-- Model of `ui_events::pointer::PointerEvent<Point>`: the seven pointer
sub-kinds with the payloads the event code pattern-matches on. -/
inductive PointerEvent where
  | Down (pointer : PointerInfo) (state : PointerState) (button : Option PointerButton)
  | Up (pointer : PointerInfo) (state : PointerState) (button : Option PointerButton)
  | Move (update : PointerUpdate)
  | Cancel (pointer : PointerInfo)
  | Enter (pointer : PointerInfo)
  | Leave (pointer : PointerInfo)
  | Scroll (pointer : PointerInfo) (delta : ScrollDelta) (state : PointerState)
deriving DecidableEq, Repr

/-- Model of `ui_events::keyboard::KeyState`. -/
inductive KeyState where
  | Down
  | Up
deriving DecidableEq, Repr

/-- Model of `ui_events::keyboard::Code` (physical key code): the three codes
the event code distinguishes (`Enter`, `NumpadEnter`, `Space`), a
representative ordinary code (`KeyA`), and `Other n` standing for the rest of
the closed enum. -/
inductive Code where
  | Enter
  | NumpadEnter
  | Space
  | KeyA
  | Other (n : Nat)
deriving DecidableEq, Repr

/-- Model of `ui_events::keyboard::KeyboardEvent`: key state, physical code and
logical key value (the logical key, location, modifiers and flags are never
inspected by the event code and are abstracted into `key`/`aux`). -/
structure KeyboardEvent where
  state : KeyState
  code : Code
  key : Nat
  aux : Nat
deriving DecidableEq, Repr

/-- Model of `FileDragEvent` from `src/dropped_file.rs`: the four variants of a
file drag-and-drop lifecycle (`PathBuf` modelled by `String`). -/
inductive FileDragEvent where
  | DragEntered (paths : List String) (position : Point)
  | DragMoved (position : Point)
  | DragDropped (paths : List String) (position : Point)
  | DragLeft (position : Option Point)
deriving DecidableEq, Repr

/-- Model of `Event` from `src/event.rs`: the closed set of event variants. -/
inductive Event where
  | Pointer (e : PointerEvent)
  | FileDrag (e : FileDragEvent)
  | Key (e : KeyboardEvent)
  | ImeEnabled
  | ImeDisabled
  | ImePreedit (text : String) (cursor : Option (Nat × Nat))
  | ImeCommit (text : String)
  | WindowGotFocus
  | WindowLostFocus
  | WindowClosed
  | WindowResized (size : Size)
  | WindowMoved (point : Point)
  | WindowMaximizeChanged (b : Bool)
  | ThemeChanged (theme : Theme)
  | FocusGained
  | FocusLost
  | WindowScaleChanged (scale : ℚ)
deriving DecidableEq, Repr

/-- Model of `EventListener` from `src/event.rs`: the enumerated listener
categories a view can register for. -/
inductive EventListener where
  | KeyDown
  | KeyUp
  | Click
  | DoubleClick
  | SecondaryClick
  | DragStart
  | DragEnd
  | DragOver
  | DragEnter
  | DragLeave
  | Drop
  | PointerDown
  | PointerMove
  | PointerUp
  | PointerEnter
  | PointerLeave
  | PinchGesture
  | ImeEnabled
  | ImeDisabled
  | ImePreedit
  | ImeCommit
  | PointerWheel
  | FocusGained
  | FocusLost
  | ThemeChanged
  | WindowClosed
  | WindowResized
  | WindowMoved
  | WindowGotFocus
  | WindowLostFocus
  | WindowMaximizeChanged
  | WindowScaleChanged
  | DroppedFile
deriving DecidableEq, Repr

/-- Model of `EventPropagation` from `src/event.rs`. -/
inductive EventPropagation where
  | Stop
  | Continue
deriving DecidableEq, Repr

/-- Model of `EventPropagation::is_continue`. -/
def EventPropagation.is_continue : EventPropagation → Bool
  | .Continue => true
  | .Stop => false

/-- Model of `EventPropagation::is_stop`. -/
def EventPropagation.is_stop : EventPropagation → Bool
  | .Stop => true
  | .Continue => false

/-- Model of `EventPropagation::is_processed`. -/
def EventPropagation.is_processed : EventPropagation → Bool
  | .Stop => true
  | .Continue => false

/-- Model of `Event::needs_focus`. -/
def Event.needs_focus : Event → Bool
  | .Key _ => true
  | _ => false

/-- Model of `Event::is_pointer`. -/
def Event.is_pointer : Event → Bool
  | .Pointer _ => true
  | _ => false

/-- Model of `Event::is_pointer_down`. -/
def Event.is_pointer_down : Event → Bool
  | .Pointer (.Down _ _ _) => true
  | _ => false

/-- Model of `Event::is_pointer_up`. -/
def Event.is_pointer_up : Event → Bool
  | .Pointer (.Up _ _ _) => true
  | _ => false

/-- Model of `Event::is_keyboard_trigger`. -/
def Event.is_keyboard_trigger : Event → Bool
  | .Key key =>
    match key.code with
    | .NumpadEnter | .Enter | .Space => true
    | _ => false
  | _ => false

/-- Model of `Event::allow_disabled`, arm for arm. -/
def Event.allow_disabled : Event → Bool
  | .Pointer (.Leave _) | .Pointer (.Move _)
  | .ThemeChanged _
  | .WindowClosed
  | .WindowResized _
  | .WindowMoved _
  | .WindowGotFocus
  | .WindowMaximizeChanged _
  | .WindowScaleChanged _
  | .WindowLostFocus
  | .FileDrag (.DragDropped _ _) => true
  | .Pointer _
  | .FocusGained
  | .FocusLost
  | .ImeEnabled
  | .ImeDisabled
  | .ImePreedit _ _
  | .ImeCommit _
  | .FileDrag (.DragEntered _ _)
  | .FileDrag (.DragMoved _)
  | .FileDrag (.DragLeft _)
  | .Key _ => false

/-- Model of `Event::point`. -/
def Event.point : Event → Option Point
  | .Pointer (.Down _ state _)
  | .Pointer (.Up _ state _)
  | .Pointer (.Move ⟨_, state, _⟩)
  | .Pointer (.Scroll _ _ state) => some state.position
  | .FileDrag (.DragEntered _ position)
  | .FileDrag (.DragMoved position)
  | .FileDrag (.DragDropped _ position)
  | .FileDrag (.DragLeft (some position)) => some position
  | _ => none

/-- Model of `Event::transform`: the Rust mutates the positional field of
`self` in place and returns it; here the same update is a functional rebuild
of the value, arm for arm. -/
def Event.transform (e : Event) (t : Affine) : Event :=
  match e with
  | .Pointer (.Down pointer state button) =>
    .Pointer (.Down pointer { state with position := t.inverse.apply state.position } button)
  | .Pointer (.Up pointer state button) =>
    .Pointer (.Up pointer { state with position := t.inverse.apply state.position } button)
  | .Pointer (.Move u) =>
    .Pointer (.Move { u with current :=
      { u.current with position := t.inverse.apply u.current.position } })
  | .Pointer (.Scroll pointer delta state) =>
    .Pointer (.Scroll pointer delta { state with position := t.inverse.apply state.position })
  | .FileDrag (.DragEntered paths position) =>
    .FileDrag (.DragEntered paths (t.inverse.apply position))
  | .FileDrag (.DragMoved position) =>
    .FileDrag (.DragMoved (t.inverse.apply position))
  | .FileDrag (.DragDropped paths position) =>
    .FileDrag (.DragDropped paths (t.inverse.apply position))
  | .FileDrag (.DragLeft (some position)) =>
    .FileDrag (.DragLeft (some (t.inverse.apply position)))
  | .Pointer (.Cancel info) => .Pointer (.Cancel info)
  | .Pointer (.Leave info) => .Pointer (.Leave info)
  | .Pointer (.Enter info) => .Pointer (.Enter info)
  | .FileDrag (.DragLeft none) => .FileDrag (.DragLeft none)
  | .Key k => .Key k
  | .FocusGained => .FocusGained
  | .FocusLost => .FocusLost
  | .ImeEnabled => .ImeEnabled
  | .ImeDisabled => .ImeDisabled
  | .ImePreedit text cursor => .ImePreedit text cursor
  | .ThemeChanged theme => .ThemeChanged theme
  | .ImeCommit text => .ImeCommit text
  | .WindowClosed => .WindowClosed
  | .WindowResized size => .WindowResized size
  | .WindowMoved point => .WindowMoved point
  | .WindowMaximizeChanged b => .WindowMaximizeChanged b
  | .WindowScaleChanged s => .WindowScaleChanged s
  | .WindowGotFocus => .WindowGotFocus
  | .WindowLostFocus => .WindowLostFocus

/-- Model of `Event::offset`. -/
def Event.offset (e : Event) (v : ℚ × ℚ) : Event :=
  e.transform (Affine.translate v)

/-- Model of `Event::listener`, arm for arm. -/
def Event.listener : Event → Option EventListener
  | .Pointer (.Down _ _ _) => some .PointerDown
  | .Pointer (.Up _ _ _) => some .PointerUp
  | .Pointer (.Move _) => some .PointerMove
  | .Pointer (.Scroll _ _ _) => some .PointerWheel
  | .Pointer (.Leave _) => some .PointerLeave
  | .Pointer (.Enter _) => none
  | .Pointer (.Cancel _) => none
  | .Key k =>
    match k.state with
    | .Down => some .KeyDown
    | .Up => some .KeyUp
  | .ImeEnabled => some .ImeEnabled
  | .ImeDisabled => some .ImeDisabled
  | .ImePreedit _ _ => some .ImePreedit
  | .ImeCommit _ => some .ImeCommit
  | .WindowClosed => some .WindowClosed
  | .WindowResized _ => some .WindowResized
  | .WindowMoved _ => some .WindowMoved
  | .WindowMaximizeChanged _ => some .WindowMaximizeChanged
  | .WindowScaleChanged _ => some .WindowScaleChanged
  | .WindowGotFocus => some .WindowGotFocus
  | .WindowLostFocus => some .WindowLostFocus
  | .FocusLost => some .FocusLost
  | .FocusGained => some .FocusGained
  | .ThemeChanged _ => some .ThemeChanged
  | .FileDrag _ => some .DroppedFile

/-- The top-level variant of an event, as a tag: used to state that geometric
adjustment never changes which variant an event is. -/
def Event.variantTag : Event → Nat
  | .Pointer _ => 0
  | .FileDrag _ => 1
  | .Key _ => 2
  | .ImeEnabled => 3
  | .ImeDisabled => 4
  | .ImePreedit _ _ => 5
  | .ImeCommit _ => 6
  | .WindowGotFocus => 7
  | .WindowLostFocus => 8
  | .WindowClosed => 9
  | .WindowResized _ => 10
  | .WindowMoved _ => 11
  | .WindowMaximizeChanged _ => 12
  | .ThemeChanged _ => 13
  | .FocusGained => 14
  | .FocusLost => 15
  | .WindowScaleChanged _ => 16

/-! Helper lemmas shared by several results. -/

theorem Event.point_transform (e : Event) (t : Affine) :
    (e.transform t).point = e.point.map t.inverse.apply := by
  cases e with
  | Pointer pe => cases pe <;> rfl
  | FileDrag fd =>
    cases fd with
    | DragEntered paths position => rfl
    | DragMoved position => rfl
    | DragDropped paths position => rfl
    | DragLeft position => cases position <;> rfl
  | Key k => rfl
  | ImeEnabled => rfl
  | ImeDisabled => rfl
  | ImePreedit text cursor => rfl
  | ImeCommit text => rfl
  | WindowGotFocus => rfl
  | WindowLostFocus => rfl
  | WindowClosed => rfl
  | WindowResized size => rfl
  | WindowMoved p => rfl
  | WindowMaximizeChanged b => rfl
  | ThemeChanged th => rfl
  | FocusGained => rfl
  | FocusLost => rfl
  | WindowScaleChanged s => rfl

theorem Affine.inverse_apply_apply (t : Affine) (h : t.det ≠ 0) (p : Point) :
    t.inverse.apply (t.apply p) = p := by
  obtain ⟨a0, a1, a2, a3, a4, a5⟩ := t
  obtain ⟨x, y⟩ := p
  simp only [Affine.det] at h
  simp only [Affine.apply, Affine.inverse, Affine.det, Point.mk.injEq]
  constructor <;> field_simp <;> ring

theorem Affine.det_inverse (t : Affine) (h : t.det ≠ 0) : t.inverse.det = t.det⁻¹ := by
  obtain ⟨a0, a1, a2, a3, a4, a5⟩ := t
  simp only [Affine.det] at h ⊢
  simp only [Affine.inverse, Affine.det]
  field_simp
  exact Or.inl (by ring)

/-- C1: `Event.listener` is a pure, total classification mapping Pointer
Down/Up/Move/Scroll/Leave to PointerDown/PointerUp/PointerMove/PointerWheel/
PointerLeave, Pointer Enter and Cancel to `none`, Key Down/Up to
KeyDown/KeyUp, every FileDrag variant to DroppedFile, each IME, window and
focus variant to its eponymous listener, and `none` for no other variant. -/
theorem listener_classification_spec :
    (∀ pi st b, (Event.Pointer (.Down pi st b)).listener = some EventListener.PointerDown) ∧
    (∀ pi st b, (Event.Pointer (.Up pi st b)).listener = some EventListener.PointerUp) ∧
    (∀ u, (Event.Pointer (.Move u)).listener = some EventListener.PointerMove) ∧
    (∀ pi d st, (Event.Pointer (.Scroll pi d st)).listener = some EventListener.PointerWheel) ∧
    (∀ pi, (Event.Pointer (.Leave pi)).listener = some EventListener.PointerLeave) ∧
    (∀ pi, (Event.Pointer (.Enter pi)).listener = none) ∧
    (∀ pi, (Event.Pointer (.Cancel pi)).listener = none) ∧
    (∀ c k a, (Event.Key ⟨.Down, c, k, a⟩).listener = some EventListener.KeyDown) ∧
    (∀ c k a, (Event.Key ⟨.Up, c, k, a⟩).listener = some EventListener.KeyUp) ∧
    (∀ fd, (Event.FileDrag fd).listener = some EventListener.DroppedFile) ∧
    Event.ImeEnabled.listener = some EventListener.ImeEnabled ∧
    Event.ImeDisabled.listener = some EventListener.ImeDisabled ∧
    (∀ s c, (Event.ImePreedit s c).listener = some EventListener.ImePreedit) ∧
    (∀ s, (Event.ImeCommit s).listener = some EventListener.ImeCommit) ∧
    Event.WindowGotFocus.listener = some EventListener.WindowGotFocus ∧
    Event.WindowLostFocus.listener = some EventListener.WindowLostFocus ∧
    Event.WindowClosed.listener = some EventListener.WindowClosed ∧
    (∀ s, (Event.WindowResized s).listener = some EventListener.WindowResized) ∧
    (∀ p, (Event.WindowMoved p).listener = some EventListener.WindowMoved) ∧
    (∀ b, (Event.WindowMaximizeChanged b).listener = some EventListener.WindowMaximizeChanged) ∧
    (∀ th, (Event.ThemeChanged th).listener = some EventListener.ThemeChanged) ∧
    Event.FocusGained.listener = some EventListener.FocusGained ∧
    Event.FocusLost.listener = some EventListener.FocusLost ∧
    (∀ s, (Event.WindowScaleChanged s).listener = some EventListener.WindowScaleChanged) ∧
    (∀ e : Event, e.listener = none ↔
      ∃ pi, e = .Pointer (.Enter pi) ∨ e = .Pointer (.Cancel pi)) := by
  refine ⟨fun _ _ _ => rfl, fun _ _ _ => rfl, fun _ => rfl, fun _ _ _ => rfl,
    fun _ => rfl, fun _ => rfl, fun _ => rfl, fun _ _ _ => rfl, fun _ _ _ => rfl,
    fun _ => rfl, rfl, rfl, fun _ _ => rfl, fun _ => rfl, rfl, rfl, rfl,
    fun _ => rfl, fun _ => rfl, fun _ => rfl, fun _ => rfl, rfl, rfl, fun _ => rfl, ?_⟩
  intro e
  cases e with
  | Pointer pe => cases pe <;> simp [Event.listener]
  | Key k =>
    obtain ⟨st, c, ky, a⟩ := k
    cases st <;> simp [Event.listener]
  | FileDrag fd => simp [Event.listener]
  | ImeEnabled => simp [Event.listener]
  | ImeDisabled => simp [Event.listener]
  | ImePreedit s c => simp [Event.listener]
  | ImeCommit s => simp [Event.listener]
  | WindowGotFocus => simp [Event.listener]
  | WindowLostFocus => simp [Event.listener]
  | WindowClosed => simp [Event.listener]
  | WindowResized s => simp [Event.listener]
  | WindowMoved p => simp [Event.listener]
  | WindowMaximizeChanged b => simp [Event.listener]
  | ThemeChanged th => simp [Event.listener]
  | FocusGained => simp [Event.listener]
  | FocusLost => simp [Event.listener]
  | WindowScaleChanged s => simp [Event.listener]

/-- C2: for every affine transform `t`, `Event.transform` applies the inverse
of `t` to exactly the positional field of every positional event (pointer
state position; drag position), leaves every other payload field untouched,
and returns keyboard, IME, window, focus events and `DragLeft` with no
position observationally equal to the input; the operation is a pure
functional update producing a new event value. -/
theorem transform_positional_update_spec (t : Affine) :
    (∀ pi st b, (Event.Pointer (.Down pi st b)).transform t =
      .Pointer (.Down pi ⟨t.inverse.apply st.position, st.aux⟩ b)) ∧
    (∀ pi st b, (Event.Pointer (.Up pi st b)).transform t =
      .Pointer (.Up pi ⟨t.inverse.apply st.position, st.aux⟩ b)) ∧
    (∀ u, (Event.Pointer (.Move u)).transform t =
      .Pointer (.Move ⟨u.pointer, ⟨t.inverse.apply u.current.position, u.current.aux⟩, u.aux⟩)) ∧
    (∀ pi d st, (Event.Pointer (.Scroll pi d st)).transform t =
      .Pointer (.Scroll pi d ⟨t.inverse.apply st.position, st.aux⟩)) ∧
    (∀ ps p, (Event.FileDrag (.DragEntered ps p)).transform t =
      .FileDrag (.DragEntered ps (t.inverse.apply p))) ∧
    (∀ p, (Event.FileDrag (.DragMoved p)).transform t =
      .FileDrag (.DragMoved (t.inverse.apply p))) ∧
    (∀ ps p, (Event.FileDrag (.DragDropped ps p)).transform t =
      .FileDrag (.DragDropped ps (t.inverse.apply p))) ∧
    (∀ p, (Event.FileDrag (.DragLeft (some p))).transform t =
      .FileDrag (.DragLeft (some (t.inverse.apply p)))) ∧
    (Event.FileDrag (.DragLeft none)).transform t = .FileDrag (.DragLeft none) ∧
    (∀ pi, (Event.Pointer (.Enter pi)).transform t = .Pointer (.Enter pi)) ∧
    (∀ pi, (Event.Pointer (.Leave pi)).transform t = .Pointer (.Leave pi)) ∧
    (∀ pi, (Event.Pointer (.Cancel pi)).transform t = .Pointer (.Cancel pi)) ∧
    (∀ k, (Event.Key k).transform t = .Key k) ∧
    Event.ImeEnabled.transform t = .ImeEnabled ∧
    Event.ImeDisabled.transform t = .ImeDisabled ∧
    (∀ s c, (Event.ImePreedit s c).transform t = .ImePreedit s c) ∧
    (∀ s, (Event.ImeCommit s).transform t = .ImeCommit s) ∧
    Event.WindowGotFocus.transform t = .WindowGotFocus ∧
    Event.WindowLostFocus.transform t = .WindowLostFocus ∧
    Event.WindowClosed.transform t = .WindowClosed ∧
    (∀ s, (Event.WindowResized s).transform t = .WindowResized s) ∧
    (∀ p, (Event.WindowMoved p).transform t = .WindowMoved p) ∧
    (∀ b, (Event.WindowMaximizeChanged b).transform t = .WindowMaximizeChanged b) ∧
    (∀ th, (Event.ThemeChanged th).transform t = .ThemeChanged th) ∧
    Event.FocusGained.transform t = .FocusGained ∧
    Event.FocusLost.transform t = .FocusLost ∧
    (∀ s, (Event.WindowScaleChanged s).transform t = .WindowScaleChanged s) :=
  ⟨fun _ _ _ => rfl, fun _ _ _ => rfl, fun _ => rfl, fun _ _ _ => rfl,
    fun _ _ => rfl, fun _ => rfl, fun _ _ => rfl, fun _ => rfl, rfl,
    fun _ => rfl, fun _ => rfl, fun _ => rfl, fun _ => rfl, rfl, rfl,
    fun _ _ => rfl, fun _ => rfl, rfl, rfl, rfl, fun _ => rfl, fun _ => rfl,
    fun _ => rfl, fun _ => rfl, rfl, rfl, fun _ => rfl⟩

/-- C3 counterexample: the claim says `point` returns `Some` of the position
for the pointer Enter variant, but the code returns `None` for Pointer Enter
(the variant carries no position at all). -/
theorem point_pointer_enter_counterexample :
    (Event.Pointer (.Enter ⟨0⟩)).point = none := rfl

/-- C3 (amended): `point` returns `some` of the event position for pointer
Down, Up, Move and Scroll and for every FileDrag variant except `DragLeft`
whose position is `none`; it returns `none` for pointer Enter, Leave and
Cancel (which carry no position) and for every non-positional event
(keyboard, IME, window, focus). -/
theorem point_characterization_amended :
    (∀ pi st b, (Event.Pointer (.Down pi st b)).point = some st.position) ∧
    (∀ pi st b, (Event.Pointer (.Up pi st b)).point = some st.position) ∧
    (∀ u, (Event.Pointer (.Move u)).point = some u.current.position) ∧
    (∀ pi d st, (Event.Pointer (.Scroll pi d st)).point = some st.position) ∧
    (∀ pi, (Event.Pointer (.Enter pi)).point = none) ∧
    (∀ pi, (Event.Pointer (.Leave pi)).point = none) ∧
    (∀ pi, (Event.Pointer (.Cancel pi)).point = none) ∧
    (∀ ps p, (Event.FileDrag (.DragEntered ps p)).point = some p) ∧
    (∀ p, (Event.FileDrag (.DragMoved p)).point = some p) ∧
    (∀ ps p, (Event.FileDrag (.DragDropped ps p)).point = some p) ∧
    (∀ p, (Event.FileDrag (.DragLeft (some p))).point = some p) ∧
    (Event.FileDrag (.DragLeft none)).point = none ∧
    (∀ k, (Event.Key k).point = none) ∧
    Event.ImeEnabled.point = none ∧
    Event.ImeDisabled.point = none ∧
    (∀ s c, (Event.ImePreedit s c).point = none) ∧
    (∀ s, (Event.ImeCommit s).point = none) ∧
    Event.WindowGotFocus.point = none ∧
    Event.WindowLostFocus.point = none ∧
    Event.WindowClosed.point = none ∧
    (∀ s, (Event.WindowResized s).point = none) ∧
    (∀ p, (Event.WindowMoved p).point = none) ∧
    (∀ b, (Event.WindowMaximizeChanged b).point = none) ∧
    (∀ th, (Event.ThemeChanged th).point = none) ∧
    Event.FocusGained.point = none ∧
    Event.FocusLost.point = none ∧
    (∀ s, (Event.WindowScaleChanged s).point = none) :=
  ⟨fun _ _ _ => rfl, fun _ _ _ => rfl, fun _ => rfl, fun _ _ _ => rfl,
    fun _ => rfl, fun _ => rfl, fun _ => rfl, fun _ _ => rfl, fun _ => rfl,
    fun _ _ => rfl, fun _ => rfl, rfl, fun _ => rfl, rfl, rfl,
    fun _ _ => rfl, fun _ => rfl, rfl, rfl, rfl, fun _ => rfl, fun _ => rfl,
    fun _ => rfl, fun _ => rfl, rfl, rfl, fun _ => rfl⟩

/-- C4: transform inverse law. For every invertible affine transform `t`
(the spec's affine transforms are invertible by definition) and every
positional event `e` with position `p`, the transformed event's position is
`t⁻¹ · p`, and transforming by `t` and then by `t.inverse` round-trips the
position back to `p` exactly (the embedding is over `ℚ`, so the
floating-point tolerance of the spec sharpens to equality). -/
theorem transform_inverse_law (t : Affine) (e : Event) (p : Point)
    (h : t.det ≠ 0) (hp : e.point = some p) :
    (e.transform t).point = some (t.inverse.apply p) ∧
    ((e.transform t).transform t.inverse).point = some p := by
  have h1 : (e.transform t).point = some (t.inverse.apply p) := by
    rw [Event.point_transform, hp]
    rfl
  refine ⟨h1, ?_⟩
  rw [Event.point_transform, h1]
  have hdet : t.inverse.det ≠ 0 := by
    rw [Affine.det_inverse t h]
    exact inv_ne_zero h
  show some (t.inverse.inverse.apply (t.inverse.apply p)) = some p
  rw [Affine.inverse_apply_apply t.inverse hdet p]

/-- Witness for C4: a concrete scaling-and-translation transform (determinant
2) applied to a pointer-down event at position (10, 10). -/
theorem transform_inverse_law_witness :
    (Affine.mk 2 0 0 1 3 0).det ≠ 0 ∧
    (Event.Pointer (.Down ⟨0⟩ ⟨⟨10, 10⟩, 0⟩ none)).point = some ⟨10, 10⟩ ∧
    ((Event.Pointer (.Down ⟨0⟩ ⟨⟨10, 10⟩, 0⟩ none)).transform (Affine.mk 2 0 0 1 3 0)).point =
      some ((Affine.mk 2 0 0 1 3 0).inverse.apply ⟨10, 10⟩) ∧
    (((Event.Pointer (.Down ⟨0⟩ ⟨⟨10, 10⟩, 0⟩ none)).transform
        (Affine.mk 2 0 0 1 3 0)).transform (Affine.mk 2 0 0 1 3 0).inverse).point =
      some ⟨10, 10⟩ := by
  have hd : (Affine.mk 2 0 0 1 3 0).det ≠ 0 := by simp [Affine.det]
  have hp : (Event.Pointer (.Down ⟨0⟩ ⟨⟨10, 10⟩, 0⟩ none)).point = some ⟨10, 10⟩ := rfl
  obtain ⟨h1, h2⟩ :=
    transform_inverse_law (Affine.mk 2 0 0 1 3 0)
      (Event.Pointer (.Down ⟨0⟩ ⟨⟨10, 10⟩, 0⟩ none)) ⟨10, 10⟩ hd hp
  exact ⟨hd, hp, h1, h2⟩

/-- C5: `allow_disabled` returns true exactly for pointer Leave and Move,
ThemeChanged, WindowClosed, WindowResized, WindowMoved, WindowGotFocus,
WindowLostFocus, WindowMaximizeChanged, WindowScaleChanged and a completed
file drop, and false for every other variant (pointer Down/Up/Scroll/Enter/
Cancel, key, IME, FocusGained, FocusLost, DragEntered/DragMoved/DragLeft). -/
theorem allow_disabled_partition_spec :
    (∀ pi, (Event.Pointer (.Leave pi)).allow_disabled = true) ∧
    (∀ u, (Event.Pointer (.Move u)).allow_disabled = true) ∧
    (∀ th, (Event.ThemeChanged th).allow_disabled = true) ∧
    Event.WindowClosed.allow_disabled = true ∧
    (∀ s, (Event.WindowResized s).allow_disabled = true) ∧
    (∀ p, (Event.WindowMoved p).allow_disabled = true) ∧
    Event.WindowGotFocus.allow_disabled = true ∧
    Event.WindowLostFocus.allow_disabled = true ∧
    (∀ b, (Event.WindowMaximizeChanged b).allow_disabled = true) ∧
    (∀ s, (Event.WindowScaleChanged s).allow_disabled = true) ∧
    (∀ ps p, (Event.FileDrag (.DragDropped ps p)).allow_disabled = true) ∧
    (∀ pi st b, (Event.Pointer (.Down pi st b)).allow_disabled = false) ∧
    (∀ pi st b, (Event.Pointer (.Up pi st b)).allow_disabled = false) ∧
    (∀ pi d st, (Event.Pointer (.Scroll pi d st)).allow_disabled = false) ∧
    (∀ pi, (Event.Pointer (.Enter pi)).allow_disabled = false) ∧
    (∀ pi, (Event.Pointer (.Cancel pi)).allow_disabled = false) ∧
    (∀ k, (Event.Key k).allow_disabled = false) ∧
    Event.ImeEnabled.allow_disabled = false ∧
    Event.ImeDisabled.allow_disabled = false ∧
    (∀ s c, (Event.ImePreedit s c).allow_disabled = false) ∧
    (∀ s, (Event.ImeCommit s).allow_disabled = false) ∧
    Event.FocusGained.allow_disabled = false ∧
    Event.FocusLost.allow_disabled = false ∧
    (∀ ps p, (Event.FileDrag (.DragEntered ps p)).allow_disabled = false) ∧
    (∀ p, (Event.FileDrag (.DragMoved p)).allow_disabled = false) ∧
    (∀ op, (Event.FileDrag (.DragLeft op)).allow_disabled = false) :=
  ⟨fun _ => rfl, fun _ => rfl, fun _ => rfl, rfl, fun _ => rfl, fun _ => rfl,
    rfl, rfl, fun _ => rfl, fun _ => rfl, fun _ _ => rfl, fun _ _ _ => rfl,
    fun _ _ _ => rfl, fun _ _ _ => rfl, fun _ => rfl, fun _ => rfl,
    fun _ => rfl, rfl, rfl, fun _ _ => rfl, fun _ => rfl, rfl, rfl,
    fun _ _ => rfl, fun _ => rfl, fun _ => rfl⟩

theorem Affine.translate_inverse_apply (dx dy : ℚ) (p : Point) :
    (Affine.translate (dx, dy)).inverse.apply p = ⟨p.x - dx, p.y - dy⟩ := by
  simp only [Affine.translate, Affine.inverse, Affine.apply, Affine.det, Point.mk.injEq]
  norm_num
  constructor <;> ring

/-- C6: `offset` equals `transform` by the translation affine; consequently it
moves an event position by exactly `(-dx, -dy)`, and concretely a
pointer-down at (10, 10) offset by (5, 0) ends up at position (5, 10). -/
theorem offset_translation_spec (dx dy : ℚ) :
    (∀ e : Event, e.offset (dx, dy) = e.transform (Affine.translate (dx, dy))) ∧
    (∀ e : Event, (e.offset (dx, dy)).point =
      e.point.map (fun p => ⟨p.x - dx, p.y - dy⟩)) ∧
    ((Event.Pointer (.Down ⟨0⟩ ⟨⟨10, 10⟩, 0⟩ none)).offset (5, 0)).point = some ⟨5, 10⟩ := by
  refine ⟨fun _ => rfl, ?_, ?_⟩
  · intro e
    rw [Event.offset, Event.point_transform]
    cases e.point with
    | none => rfl
    | some p => simp [Affine.translate_inverse_apply]
  · rw [Event.offset, Event.point_transform]
    show some ((Affine.translate (5, 0)).inverse.apply ⟨10, 10⟩) = some ⟨5, 10⟩
    rw [Affine.translate_inverse_apply]
    norm_num

/-- C7: `needs_focus` holds exactly for `Key` events and for no other
variant. -/
theorem needs_focus_spec :
    (∀ k, (Event.Key k).needs_focus = true) ∧
    (∀ pe, (Event.Pointer pe).needs_focus = false) ∧
    (∀ fd, (Event.FileDrag fd).needs_focus = false) ∧
    Event.ImeEnabled.needs_focus = false ∧
    Event.ImeDisabled.needs_focus = false ∧
    (∀ s c, (Event.ImePreedit s c).needs_focus = false) ∧
    (∀ s, (Event.ImeCommit s).needs_focus = false) ∧
    Event.WindowGotFocus.needs_focus = false ∧
    Event.WindowLostFocus.needs_focus = false ∧
    Event.WindowClosed.needs_focus = false ∧
    (∀ s, (Event.WindowResized s).needs_focus = false) ∧
    (∀ p, (Event.WindowMoved p).needs_focus = false) ∧
    (∀ b, (Event.WindowMaximizeChanged b).needs_focus = false) ∧
    (∀ th, (Event.ThemeChanged th).needs_focus = false) ∧
    Event.FocusGained.needs_focus = false ∧
    Event.FocusLost.needs_focus = false ∧
    (∀ s, (Event.WindowScaleChanged s).needs_focus = false) ∧
    (∀ e : Event, e.needs_focus = true ↔ ∃ k, e = .Key k) := by
  refine ⟨fun _ => rfl, fun _ => rfl, fun _ => rfl, rfl, rfl, fun _ _ => rfl,
    fun _ => rfl, rfl, rfl, rfl, fun _ => rfl, fun _ => rfl, fun _ => rfl,
    fun _ => rfl, rfl, rfl, fun _ => rfl, ?_⟩
  intro e
  cases e <;> simp [Event.needs_focus]

/-- C8: `EventPropagation` has exactly the two values Stop and Continue, with
`is_continue` true exactly on Continue, `is_stop` true exactly on Stop, and
`is_processed` agreeing with `is_stop` everywhere. -/
theorem event_propagation_spec :
    (∀ v : EventPropagation, v = .Stop ∨ v = .Continue) ∧
    EventPropagation.Continue.is_continue = true ∧
    EventPropagation.Stop.is_continue = false ∧
    EventPropagation.Stop.is_stop = true ∧
    EventPropagation.Continue.is_stop = false ∧
    (∀ v : EventPropagation, v.is_processed = v.is_stop) :=
  ⟨fun v => by cases v <;> simp, rfl, rfl, rfl, rfl, fun v => by cases v <;> rfl⟩

/-- C9: geometric adjustment never changes how an event is classified:
`transform` preserves the event's variant, its `listener` classification, its
`needs_focus` flag and its `allow_disabled` admission. -/
theorem transform_preserves_classification (e : Event) (t : Affine) :
    (e.transform t).variantTag = e.variantTag ∧
    (e.transform t).listener = e.listener ∧
    (e.transform t).needs_focus = e.needs_focus ∧
    (e.transform t).allow_disabled = e.allow_disabled := by
  cases e with
  | Pointer pe => cases pe <;> exact ⟨rfl, rfl, rfl, rfl⟩
  | FileDrag fd =>
    cases fd with
    | DragEntered ps p => exact ⟨rfl, rfl, rfl, rfl⟩
    | DragMoved p => exact ⟨rfl, rfl, rfl, rfl⟩
    | DragDropped ps p => exact ⟨rfl, rfl, rfl, rfl⟩
    | DragLeft op => cases op <;> exact ⟨rfl, rfl, rfl, rfl⟩
  | Key k => exact ⟨rfl, rfl, rfl, rfl⟩
  | ImeEnabled => exact ⟨rfl, rfl, rfl, rfl⟩
  | ImeDisabled => exact ⟨rfl, rfl, rfl, rfl⟩
  | ImePreedit s c => exact ⟨rfl, rfl, rfl, rfl⟩
  | ImeCommit s => exact ⟨rfl, rfl, rfl, rfl⟩
  | WindowGotFocus => exact ⟨rfl, rfl, rfl, rfl⟩
  | WindowLostFocus => exact ⟨rfl, rfl, rfl, rfl⟩
  | WindowClosed => exact ⟨rfl, rfl, rfl, rfl⟩
  | WindowResized s => exact ⟨rfl, rfl, rfl, rfl⟩
  | WindowMoved p => exact ⟨rfl, rfl, rfl, rfl⟩
  | WindowMaximizeChanged b => exact ⟨rfl, rfl, rfl, rfl⟩
  | ThemeChanged th => exact ⟨rfl, rfl, rfl, rfl⟩
  | FocusGained => exact ⟨rfl, rfl, rfl, rfl⟩
  | FocusLost => exact ⟨rfl, rfl, rfl, rfl⟩
  | WindowScaleChanged s => exact ⟨rfl, rfl, rfl, rfl⟩

/-- C10: `is_keyboard_trigger` holds exactly for `Key` events whose physical
code is Enter, NumpadEnter or Space; it ignores the key state (key-up counts
as well as key-down) and is false for every non-key event. -/
theorem keyboard_trigger_spec :
    (∀ k : KeyboardEvent, (Event.Key k).is_keyboard_trigger = true ↔
      (k.code = .Enter ∨ k.code = .NumpadEnter ∨ k.code = .Space)) ∧
    (∀ st c k a, (Event.Key ⟨st, c, k, a⟩).is_keyboard_trigger =
      (Event.Key ⟨.Down, c, k, a⟩).is_keyboard_trigger) ∧
    (∀ pe, (Event.Pointer pe).is_keyboard_trigger = false) ∧
    (∀ fd, (Event.FileDrag fd).is_keyboard_trigger = false) ∧
    Event.ImeEnabled.is_keyboard_trigger = false ∧
    Event.ImeDisabled.is_keyboard_trigger = false ∧
    (∀ s c, (Event.ImePreedit s c).is_keyboard_trigger = false) ∧
    (∀ s, (Event.ImeCommit s).is_keyboard_trigger = false) ∧
    Event.WindowGotFocus.is_keyboard_trigger = false ∧
    Event.WindowLostFocus.is_keyboard_trigger = false ∧
    Event.WindowClosed.is_keyboard_trigger = false ∧
    (∀ s, (Event.WindowResized s).is_keyboard_trigger = false) ∧
    (∀ p, (Event.WindowMoved p).is_keyboard_trigger = false) ∧
    (∀ b, (Event.WindowMaximizeChanged b).is_keyboard_trigger = false) ∧
    (∀ th, (Event.ThemeChanged th).is_keyboard_trigger = false) ∧
    Event.FocusGained.is_keyboard_trigger = false ∧
    Event.FocusLost.is_keyboard_trigger = false ∧
    (∀ s, (Event.WindowScaleChanged s).is_keyboard_trigger = false) := by
  refine ⟨?_, fun _ _ _ _ => rfl, fun _ => rfl, fun _ => rfl, rfl, rfl,
    fun _ _ => rfl, fun _ => rfl, rfl, rfl, rfl, fun _ => rfl, fun _ => rfl,
    fun _ => rfl, fun _ => rfl, rfl, rfl, fun _ => rfl⟩
  intro k
  obtain ⟨st, c, ky, a⟩ := k
  cases c <;> simp [Event.is_keyboard_trigger]
